import Mathlib

/-!
Shallow embedding of the core protocols of the `mps` Rust crate
(DuckLogic/rust-mps): the scan/fix tally protocol (`src/format.rs`),
the allocation-point reserve/commit protocol (`src/alloc.rs`),
the result-code error taxonomy (`src/err.rs`), the pool destruction
order (`src/pools/*.rs`) and the binary-trees example object format
(`examples/binary_trees_raw.rs`).

Machine integers (`usize` / `mps_word_t`) are modelled as `Nat` with
explicit `% 2 ^ 64` at the points where the source uses wrapping
arithmetic; raw pointers are modelled as `Nat` addresses with `0` for
the null pointer.  Engine (FFI) calls are modelled by passing the
engine's answer in as an explicit argument, so that each wrapper's own
control flow is captured exactly.
-/

namespace Mps

/-- Number of bits in `mps_word_t` (`usize` on a 64-bit platform);
`size_of::<mps_word_t>() * CHAR_BIT` in `should_fix`. -/
def wordBits : Nat := 64

/-- `2 ^ 64`: one past the largest `usize` value. -/
def wordSize : Nat := 2 ^ wordBits

/-! ## Error taxonomy (src/err.rs) -/

/-- The error taxonomy `MpsError` (src/err.rs lines 32-66). -/
inductive MpsError where
  | Fail
  | Io
  | Limit
  | Memory
  | Resource
  | Unimplemented
  | CommitLimit
  | InvalidParam
  | Unknown
deriving Repr, DecidableEq

/-- `MPS_RES_OK`: the success result code (always zero). -/
def MPS_RES_OK : Nat := 0

/-- The published nonzero engine result codes.  The numeric values come
from the engine header (`mps.h`, vendored outside `src/`), whose enum
assigns, in order: OK = 0, FAIL = 1, RESOURCE = 2, MEMORY = 3,
LIMIT = 4, UNIMPL = 5, IO = 6, COMMIT_LIMIT = 7, PARAM = 8. -/
def publishedCodes : List Nat := [1, 2, 3, 4, 5, 6, 7, 8]

/-- `MpsError::from_code` (src/err.rs lines 69-83): the match on the
published result codes, with the wildcard arm mapping every other code
to `Unknown`.  The arms are in source order; the numeric values of the
`MPS_RES_*` constants are those of the engine header (see
`publishedCodes`).  The source also asserts `code != MPS_RES_OK` on
entry, so callers only ever pass nonzero codes. -/
def MpsError.from_code (code : Nat) : MpsError :=
  if code = 1 then MpsError.Fail
  else if code = 6 then MpsError.Io
  else if code = 4 then MpsError.Limit
  else if code = 3 then MpsError.Memory
  else if code = 2 then MpsError.Resource
  else if code = 5 then MpsError.Unimplemented
  else if code = 7 then MpsError.CommitLimit
  else if code = 8 then MpsError.InvalidParam
  else MpsError.Unknown

/-- The `handle_mps_res!` macro (src/err.rs lines 16-25): a result code
becomes `Ok(())` exactly when it equals `MPS_RES_OK`, and otherwise
`Err(MpsError::from_code(code))`. -/
def handle_mps_res (code : Nat) : Except MpsError Unit :=
  if code = MPS_RES_OK then Except.ok () else Except.error (MpsError.from_code code)

/-! ## Scan / fix protocol (src/format.rs) -/

/-- The fields of `ScanFixState` (src/format.rs lines 216-222): the
local copies `zs`, `w`, `ufs` of the raw scan-state words made by
`MPS_SCAN_BEGIN`. -/
structure ScanFixState where
  zs : Nat
  w : Nat
  ufs : Nat
deriving Repr, DecidableEq

/-- The word `wt` computed by `ScanFixState::should_fix`
(src/format.rs lines 236-237):
`1usize << ((addr as mps_word_t) >> self.zs & (size_of::<mps_word_t>() * CHAR_BIT - 1))`.
The shift amount is masked to `0..=63`, so the shifted value fits in a
word; the `% wordSize` records the `usize` width of the result. -/
def shouldFixWord (zs addr : Nat) : Nat :=
  (1 <<< ((addr >>> zs) &&& (wordBits - 1))) % wordSize

/-- `ScanFixState::should_fix` (src/format.rs lines 234-240): computes
`wt`, unconditionally performs `self.ufs |= wt`, and returns
`(self.w & wt) != 0`.  Modelled as returning the updated state together
with the boolean result. -/
def ScanFixState.should_fix (s : ScanFixState) (addr : Nat) : ScanFixState × Bool :=
  let wt : Nat := shouldFixWord s.zs addr
  ({ s with ufs := s.ufs ||| wt }, (s.w &&& wt) != 0)

/-- The engine-visible scan state `mps_ss_s` behind `ScanState.raw`:
the fields `_zs`, `_w`, `_ufs` read and written by `fix_with`
(src/format.rs lines 195-207). -/
structure RawScanState where
  zsField : Nat
  wField : Nat
  ufsField : Nat
deriving Repr, DecidableEq

/-- `ScanState::fix_with` (src/format.rs lines 192-208): builds a
`ScanFixState` from the raw words (`MPS_SCAN_BEGIN`), runs the closure,
and on `Err(code)` returns `code` at once without touching the raw
state; only on `Ok(())` does it write the accumulated tally back
(`(*self.raw)._ufs = state.ufs`, `MPS_SCAN_END`) and return
`MPS_RES_OK`.  The closure is modelled as a function from the initial
`ScanFixState` to the final one paired with its `Result`. -/
def ScanState.fix_with (raw : RawScanState)
    (func : ScanFixState → ScanFixState × Except Nat Unit) :
    RawScanState × Nat :=
  match func { zs := raw.zsField, w := raw.wField, ufs := raw.ufsField } with
  | (_, Except.error code) => (raw, code)
  | (state', Except.ok ()) => ({ raw with ufsField := state'.ufs }, MPS_RES_OK)

/-! ## Allocation points (src/alloc.rs) -/

/-- The mutable fields of `mps_ap_s` used by the allocation-point fast
paths (src/alloc.rs): `alloc` (the bump cursor), `limit`, and `init`.
Pointers are `Nat` addresses; a null pointer is `0`. -/
structure AllocationPointState where
  alloc : Nat
  limit : Nat
  init : Nat
deriving Repr, DecidableEq

/-- The outcome of `AllocationPoint::reserve`: either the fast path was
taken (carrying the updated allocation-point state and the returned
address, with no engine call), or the call delegated to the engine
operation `mps_ap_fill` with the requested size. -/
inductive ReserveResult where
  | fast (s : AllocationPointState) (addr : Nat)
  | slow (size : Nat)
deriving Repr, DecidableEq

/-- `AllocationPoint::reserve` (src/alloc.rs lines 120-134):
`next = alloc.wrapping_add(size)`; if `next > alloc && next <= limit`
then the cursor is advanced to `next` and `init` is returned with no
engine call; otherwise the call delegates to `fill(size)`. -/
def AllocationPoint.reserve (s : AllocationPointState) (size : Nat) : ReserveResult :=
  let next : Nat := (s.alloc + size) % wordSize
  if next > s.alloc ∧ next ≤ s.limit then
    ReserveResult.fast { s with alloc := next } s.init
  else
    ReserveResult.slow size

/-- `AllocationPoint::fill` (src/alloc.rs lines 165-171): the engine
call `mps_ap_fill` yields a result code and an address; code `0`
becomes `Ok(addr)` and any other code becomes
`Err(MpsError::from_code(code))`. -/
def AllocationPoint.fill (engineRes : Nat) (engineAddr : Nat) : Except MpsError Nat :=
  match engineRes with
  | 0 => Except.ok engineAddr
  | code => Except.error (MpsError.from_code code)

/-- `AllocationPoint::trip` (src/alloc.rs lines 177-179): the engine
call `mps_ap_trip` yields an integer; the wrapper returns `!= 0`. -/
def AllocationPoint.trip (engineRes : Nat) : Bool :=
  engineRes != 0

/-- `AllocationPoint::commit` (src/alloc.rs lines 150-158): first sets
`init = alloc`; then, if `limit` is non-null, returns `true` with no
engine call; only when `limit` is null does it consult `trip`
(modelled by the engine's answer `engineTripRes`).  The outcome is a
plain boolean — the return type admits no `MpsError`. -/
def AllocationPoint.commit (s : AllocationPointState) (engineTripRes : Nat) :
    AllocationPointState × Bool :=
  if s.limit ≠ 0 then
    ({ s with init := s.alloc }, true)
  else
    ({ s with init := s.alloc }, AllocationPoint.trip engineTripRes)

/-! ## Format construction (src/format.rs) -/

/-- Whether `n` is a nonzero power of two, as a computable check.
Every power of two `2 ^ k` satisfies `k < 2 ^ k`, so searching
exponents up to `n` is exhaustive. -/
def isNonzeroPowTwo (n : Nat) : Bool :=
  (List.range (n + 1)).any fun k => n == 2 ^ k

/-- Modelled from the spec: the alignment validation performed when an
`ObjectFormat` is constructed.  `ObjectFormat::managed_with`
(src/format.rs lines 34-72) passes `M::ALIGNMENT` as the `FMT_ALIGN`
argument of the engine call `mps_fmt_create_k`, whose code is vendored
outside `src/`; per the spec, "Construction validates alignment is a
nonzero power of two; fails with InvalidParam otherwise." -/
def managed_with_alignment_check (align : Nat) : Except MpsError Unit :=
  if isNonzeroPowTwo align then Except.ok () else Except.error MpsError.InvalidParam

/-! ## Pool destruction order (src/pools) -/

/-- The two engine-visible destruction effects performed while dropping
a pool wrapper: destroying the engine pool (`mps_pool_destroy`) and
destroying the owned `ObjectFormat`
(`ManuallyDrop::drop(&mut self.format)`, which runs
`mps_fmt_destroy`). -/
inductive DropEvent where
  | destroyPool
  | destroyFormat
deriving Repr, DecidableEq

/-- `impl Drop for AutoMarkSweep` (src/pools/mark_sweep.rs lines
150-158), as the ordered trace of its destruction effects:
`mps_pool_destroy(self.raw)` then `ManuallyDrop::drop(&mut self.format)`. -/
def AutoMarkSweep.dropTrace : List DropEvent :=
  [DropEvent.destroyPool, DropEvent.destroyFormat]

/-- `impl Drop for AutoMostlyCopyingPool`
(src/pools/automatic_mostly_copying.rs lines 103-111), as the ordered
trace of its destruction effects: `mps_pool_destroy(self.raw)` then
`ManuallyDrop::drop(&mut self.format)`. -/
def AutoMostlyCopyingPool.dropTrace : List DropEvent :=
  [DropEvent.destroyPool, DropEvent.destroyFormat]

/-! ## Binary-trees example object format (examples/binary_trees_raw.rs) -/

/-- The `TreeObject` enum (examples/binary_trees_raw.rs lines 28-37):
a forwarding marker (new address plus recorded size), a live tree node
(its `children` cell), or a padding marker.  Addresses are `Nat`. -/
inductive TreeObject where
  | Forwarding (new : Nat) (size : Nat)
  | Tree (children : Option (Nat × Nat))
  | Padding (size : Nat)
deriving Repr, DecidableEq

/-- `TreeObject::size` (examples/binary_trees_raw.rs lines 39-47):
forwarding and padding markers report their recorded size; a live tree
node reports `Layout::new::<TreeObject>().pad_to_align().size()`, a
platform constant passed here as `layoutSize`. -/
def TreeObject.size (layoutSize : Nat) : TreeObject → Nat
  | TreeObject.Forwarding _ s => s
  | TreeObject.Tree _ => layoutSize
  | TreeObject.Padding s => s

/-- `TreeObject::forward` (examples/binary_trees_raw.rs lines 60-64):
overwrites the old object with `Forwarding { new, size: (*old).size() }`. -/
def TreeObject.forward (layoutSize : Nat) (old : TreeObject) (new : Nat) : TreeObject :=
  TreeObject.Forwarding new (old.size layoutSize)

/-- `TreeObject::is_forwarded` (examples/binary_trees_raw.rs lines
66-71): the forwarding target for a forwarding marker, else the null
pointer (`0`). -/
def TreeObject.is_forwarded : TreeObject → Nat
  | TreeObject.Forwarding new _ => new
  | TreeObject.Tree _ => 0
  | TreeObject.Padding _ => 0

/-- `TreeObject::pad` (examples/binary_trees_raw.rs lines 73-77):
writes `Padding { size }` at the target address. -/
def TreeObject.pad (size : Nat) : TreeObject :=
  TreeObject.Padding size

/-- `TreeObject::skip` (examples/binary_trees_raw.rs lines 105-107):
`(addr as *mut u8).add(addr.read().size())`, i.e. the start address
plus the object's size. -/
def TreeObject.skip (layoutSize : Nat) (addr : Nat) (obj : TreeObject) : Nat :=
  addr + obj.size layoutSize

end Mps

namespace Mps

/-- C1: `should_fix` updates the tally word `ufs` with the computed bit
on every call — both when it returns `true` and when it returns
`false` — leaves the filter word `w` and shift `zs` unchanged, and its
boolean result is exactly whether the computed bit intersects the
filter word `w`. -/
theorem should_fix_always_tallies_and_filters (s : ScanFixState) (addr : Nat) :
    (s.should_fix addr).1.ufs = s.ufs ||| shouldFixWord s.zs addr ∧
    (s.should_fix addr).1.w = s.w ∧
    (s.should_fix addr).1.zs = s.zs ∧
    ((s.should_fix addr).2 = true ↔ s.w &&& shouldFixWord s.zs addr ≠ 0) := by
  refine ⟨rfl, rfl, rfl, ?_⟩
  simp [ScanFixState.should_fix]

/-- C1 (witness): the theorem applied at the state
`⟨zs := 0, w := 2, ufs := 0⟩` and address `1`: the computed bit is `2`,
the tally becomes `2`, and the filter answers `true`. -/
theorem should_fix_always_tallies_and_filters_witness :
    ((⟨0, 2, 0⟩ : ScanFixState).should_fix 1).1.ufs = 0 ||| shouldFixWord 0 1 ∧
    ((⟨0, 2, 0⟩ : ScanFixState).should_fix 1).2 = true :=
  ⟨(should_fix_always_tallies_and_filters ⟨0, 2, 0⟩ 1).1,
   (should_fix_always_tallies_and_filters ⟨0, 2, 0⟩ 1).2.2.2.mpr (by decide)⟩

/-- C2 (counterexample): the claim that the tally accumulated by
`should_fix` during the batch is written back into the engine-visible
`_ufs` even when the closure fails is false.  With the raw scan state
`⟨0, 0, 0⟩` and a closure that performs one `should_fix` call at
address `1` (accumulating a tally of `2`) and then returns `Err(5)`,
`fix_with` returns the code `5` but leaves `_ufs` at `0`, not `2`. -/
theorem fix_with_err_skips_tally_writeback_counterexample :
    ((⟨0, 0, 0⟩ : ScanFixState).should_fix 1).1.ufs = 2 ∧
    ScanState.fix_with ⟨0, 0, 0⟩
      (fun s => ((s.should_fix 1).1, Except.error 5)) = (⟨0, 0, 0⟩, 5) ∧
    (0 : Nat) ≠ 2 := by
  refine ⟨?_, rfl, by decide⟩
  decide

/-- C2 (amended): if the closure supplied to `fix_with` returns
`Err(code)`, `fix_with` returns exactly that engine code immediately
and leaves the engine-visible scan state — in particular `_ufs` —
unchanged; only when the closure returns `Ok(())` is the tally
accumulated in the local `ScanFixState` written back into `_ufs`, with
`fix_with` returning `MPS_RES_OK`. -/
theorem fix_with_propagates_err_and_writes_tally_on_ok (raw : RawScanState)
    (func : ScanFixState → ScanFixState × Except Nat Unit)
    (st' : ScanFixState) (r : Except Nat Unit)
    (h : func { zs := raw.zsField, w := raw.wField, ufs := raw.ufsField } = (st', r)) :
    (∀ code, r = Except.error code → ScanState.fix_with raw func = (raw, code)) ∧
    (r = Except.ok () →
      ScanState.fix_with raw func = ({ raw with ufsField := st'.ufs }, MPS_RES_OK)) := by
  constructor
  · intro code hc
    subst hc
    simp [ScanState.fix_with, h]
  · intro hc
    subst hc
    simp [ScanState.fix_with, h]

/-- C2 (witness): the amended theorem applied at the concrete inputs of
the counterexample: the closure fails with code `5`, and `fix_with`
returns `5` with the raw state untouched. -/
theorem fix_with_propagates_err_and_writes_tally_on_ok_witness :
    ScanState.fix_with ⟨0, 0, 0⟩
      (fun s => ((s.should_fix 1).1, Except.error 5)) = (⟨0, 0, 0⟩, 5) :=
  (fix_with_propagates_err_and_writes_tally_on_ok ⟨0, 0, 0⟩
    (fun s => ((s.should_fix 1).1, Except.error 5))
    ((⟨0, 0, 0⟩ : ScanFixState).should_fix 1).1 (Except.error 5) rfl).1 5 rfl

/-- C3 (counterexample): the claim that `reserve(size)` takes the fast
path whenever the cursor plus the size neither wraps nor exceeds the
limit is false for `size = 0`: with cursor `4` and limit `8`,
`4 + 0` neither wraps nor exceeds the limit, yet the guard
`next > alloc` fails and the call delegates to the engine fill. -/
theorem reserve_zero_size_slow_counterexample :
    (4 : Nat) + 0 < wordSize ∧ (4 : Nat) + 0 ≤ 8 ∧
    AllocationPoint.reserve ⟨4, 8, 4⟩ 0 = ReserveResult.slow 0 := by
  refine ⟨by decide, by decide, by decide⟩

/-- C3 (amended): for every allocation-point state and every *nonzero*
size such that the cursor plus the size neither wraps around the
address space nor exceeds the limit, `reserve(size)` takes the fast
path: it advances the cursor by exactly `size`, returns the allocation
point's `init` address, and performs no engine call; in every other
case (for word-sized cursor and size values) it delegates to the
engine fill operation, which maps result code `0` to `Ok` and every
nonzero code to the corresponding `MpsError`. -/
theorem reserve_fast_path_iff (s : AllocationPointState) (size : Nat) :
    (0 < size → s.alloc + size < wordSize → s.alloc + size ≤ s.limit →
      AllocationPoint.reserve s size =
        ReserveResult.fast { s with alloc := s.alloc + size } s.init) ∧
    (s.alloc < wordSize → size < wordSize →
      ¬(0 < size ∧ s.alloc + size < wordSize ∧ s.alloc + size ≤ s.limit) →
      AllocationPoint.reserve s size = ReserveResult.slow size) ∧
    (∀ addr, AllocationPoint.fill 0 addr = Except.ok addr) ∧
    (∀ code addr, code ≠ 0 →
      AllocationPoint.fill code addr = Except.error (MpsError.from_code code)) := by
  refine ⟨?_, ?_, fun addr => rfl, ?_⟩
  · intro hpos hnw hlim
    have hmod : (s.alloc + size) % wordSize = s.alloc + size := Nat.mod_eq_of_lt hnw
    simp only [AllocationPoint.reserve, hmod]
    rw [if_pos ⟨by omega, hlim⟩]
  · intro ha hs hneg
    have hW : wordSize = 18446744073709551616 := by norm_num [wordSize, wordBits]
    have hcond : ¬((s.alloc + size) % wordSize > s.alloc ∧
        (s.alloc + size) % wordSize ≤ s.limit) := by
      rw [hW] at ha hs hneg ⊢
      omega
    simp only [AllocationPoint.reserve]
    rw [if_neg hcond]
  · intro code addr hc
    cases code with
    | zero => exact absurd rfl hc
    | succ c => rfl

/-- C3 (witness): the amended theorem applied at cursor `4`, limit
`16`, `init = 4`, size `8`: the fast path is taken, the cursor becomes
`12` and the `init` address `4` is returned; and the fill mapping sends
code `3` (MEMORY) to the `Memory` error. -/
theorem reserve_fast_path_iff_witness :
    AllocationPoint.reserve ⟨4, 16, 4⟩ 8 = ReserveResult.fast ⟨12, 16, 4⟩ 4 ∧
    AllocationPoint.fill 3 0 = Except.error MpsError.Memory := by
  have h := reserve_fast_path_iff ⟨4, 16, 4⟩ 8
  exact ⟨h.1 (by decide) (by decide) (by decide), h.2.2.2 3 0 (by decide)⟩

/-- C10: if adding the size to the cursor wraps around the address
space (wrapping addition), the fast-path guard `next > alloc` fails and
`reserve` takes the slow path; and whenever `reserve` does take the
fast path, the new cursor is strictly greater than the old one and
does not exceed the limit (and the returned address is `init`). -/
theorem reserve_wrap_takes_slow_path (s : AllocationPointState) (size : Nat) :
    (s.alloc < wordSize → size < wordSize → wordSize ≤ s.alloc + size →
      AllocationPoint.reserve s size = ReserveResult.slow size) ∧
    (∀ s' addr, AllocationPoint.reserve s size = ReserveResult.fast s' addr →
      s.alloc < s'.alloc ∧ s'.alloc ≤ s.limit ∧ s'.limit = s.limit ∧
        s'.init = s.init ∧ addr = s.init) := by
  constructor
  · intro ha hs hw
    have hW : wordSize = 18446744073709551616 := by norm_num [wordSize, wordBits]
    have hcond : ¬((s.alloc + size) % wordSize > s.alloc ∧
        (s.alloc + size) % wordSize ≤ s.limit) := by
      rw [hW] at ha hs hw ⊢
      omega
    simp only [AllocationPoint.reserve]
    rw [if_neg hcond]
  · intro s' addr
    simp only [AllocationPoint.reserve]
    split
    · rename_i hcond
      intro hfast
      injection hfast with h1 h2
      subst h1
      subst h2
      exact ⟨hcond.1, hcond.2, rfl, rfl, rfl⟩
    · intro hfast
      cases hfast

/-- C10 (witness): the theorem applied at a cursor `8` below the top of
the address space with size `16`, which wraps: `reserve` takes the slow
path. -/
theorem reserve_wrap_takes_slow_path_witness :
    AllocationPoint.reserve ⟨wordSize - 8, 42, 7⟩ 16 = ReserveResult.slow 16 :=
  (reserve_wrap_takes_slow_path ⟨wordSize - 8, 42, 7⟩ 16).1
    (by decide) (by decide) (by decide)

/-- C4: `commit` first sets `init` equal to `alloc` (in every case),
returns `true` whenever the limit pointer is non-null, and only when
the limit pointer is null does it consult the engine's trip check,
whose answer is delivered as a plain boolean (`mps_ap_trip(..) != 0`);
the return type admits no `MpsError`. -/
theorem commit_sets_init_then_checks_limit (s : AllocationPointState)
    (engineTripRes : Nat) :
    (AllocationPoint.commit s engineTripRes).1.init = s.alloc ∧
    (AllocationPoint.commit s engineTripRes).1.alloc = s.alloc ∧
    (AllocationPoint.commit s engineTripRes).1.limit = s.limit ∧
    (s.limit ≠ 0 → (AllocationPoint.commit s engineTripRes).2 = true) ∧
    (s.limit = 0 →
      (AllocationPoint.commit s engineTripRes).2 = AllocationPoint.trip engineTripRes) := by
  by_cases h : s.limit = 0 <;>
    simp [AllocationPoint.commit, h]

/-- C4 (witness): the theorem applied with a non-null limit (`8`): the
commit succeeds with `true` and `init` has been set to the cursor. -/
theorem commit_sets_init_then_checks_limit_witness :
    (AllocationPoint.commit ⟨4, 8, 0⟩ 0).2 = true ∧
    (AllocationPoint.commit ⟨4, 8, 0⟩ 0).1.init = 4 := by
  have h := commit_sets_init_then_checks_limit ⟨4, 8, 0⟩ 0
  exact ⟨h.2.2.2.1 (by decide), h.1⟩

/-- C5: `handle_mps_res` yields `Ok` exactly for the code
`MPS_RES_OK = 0` and otherwise `Err(MpsError::from_code code)`; each of
the eight published nonzero codes maps to its own taxonomy variant,
the mapping is injective on the published set, and every nonzero code
outside the published set maps to `Unknown` (the function is total, so
no code can make it panic). -/
theorem result_code_taxonomy :
    (∀ code, handle_mps_res code = Except.ok () ↔ code = MPS_RES_OK) ∧
    MpsError.from_code 1 = MpsError.Fail ∧
    MpsError.from_code 2 = MpsError.Resource ∧
    MpsError.from_code 3 = MpsError.Memory ∧
    MpsError.from_code 4 = MpsError.Limit ∧
    MpsError.from_code 5 = MpsError.Unimplemented ∧
    MpsError.from_code 6 = MpsError.Io ∧
    MpsError.from_code 7 = MpsError.CommitLimit ∧
    MpsError.from_code 8 = MpsError.InvalidParam ∧
    (∀ c d, c ∈ publishedCodes → d ∈ publishedCodes →
      MpsError.from_code c = MpsError.from_code d → c = d) ∧
    (∀ code, code ≠ 0 → code ∉ publishedCodes →
      MpsError.from_code code = MpsError.Unknown) ∧
    (∀ code, code ≠ 0 →
      handle_mps_res code = Except.error (MpsError.from_code code)) := by
  refine ⟨?_, rfl, rfl, rfl, rfl, rfl, rfl, rfl, rfl, ?_, ?_, ?_⟩
  · intro code
    by_cases h : code = 0 <;> simp [handle_mps_res, MPS_RES_OK, h]
  · intro c d hc hd h
    fin_cases hc <;> fin_cases hd <;> revert h <;> decide
  · intro code h0 hpub
    simp only [publishedCodes, List.mem_cons, List.not_mem_nil, or_false] at hpub
    push_neg at hpub
    obtain ⟨h1, h2, h3, h4, h5, h6, h7, h8⟩ := hpub
    simp [MpsError.from_code, h1, h2, h3, h4, h5, h6, h7, h8]
  · intro code h0
    simp [handle_mps_res, MPS_RES_OK, h0]

/-- C5 (witness): the theorem applied at the success code `0`, the
published code `3`, and the unpublished nonzero code `47`, which maps
to `Unknown` rather than panicking. -/
theorem result_code_taxonomy_witness :
    handle_mps_res 0 = Except.ok () ∧
    handle_mps_res 3 = Except.error MpsError.Memory ∧
    MpsError.from_code 47 = MpsError.Unknown := by
  obtain ⟨hok, _, _, hmem, _, _, _, _, _, _, hunk, herr⟩ := result_code_taxonomy
  exact ⟨(hok 0).mpr rfl, by rw [herr 3 (by decide), hmem], hunk 47 (by decide) (by decide)⟩

/-- C6: the alignment validation modelled from the spec for
`ObjectFormat::managed_with` rejects every alignment that is not a
power of two (equivalently, not a nonzero power of two, since every
power of two is nonzero) with `InvalidParam`, and does not reject any
power-of-two alignment. -/
theorem managed_with_alignment_validation (align : Nat) :
    ((∀ k ≤ align, align ≠ 2 ^ k) →
      managed_with_alignment_check align = Except.error MpsError.InvalidParam) ∧
    (∀ k, align = 2 ^ k → managed_with_alignment_check align = Except.ok ()) := by
  constructor
  · intro h
    have hfalse : isNonzeroPowTwo align = false := by
      rw [isNonzeroPowTwo]
      rw [List.any_eq_false]
      intro k hk
      simp only [beq_iff_eq]
      exact h k (by
        have := List.mem_range.mp hk
        omega)
    rw [managed_with_alignment_check, hfalse]
    rfl
  · intro k hk
    have htrue : isNonzeroPowTwo align = true := by
      rw [isNonzeroPowTwo]
      rw [List.any_eq_true]
      refine ⟨k, List.mem_range.mpr ?_, by simp [hk]⟩
      have hlt : k < 2 ^ k := Nat.lt_two_pow k
      omega
    rw [managed_with_alignment_check, htrue]
    rfl

/-- C6 (witness): the theorem applied at the non-power-of-two alignment
`6` (rejected with `InvalidParam`) and at the power-of-two alignment
`8 = 2 ^ 3` (accepted). -/
theorem managed_with_alignment_validation_witness :
    managed_with_alignment_check 6 = Except.error MpsError.InvalidParam ∧
    managed_with_alignment_check 8 = Except.ok () :=
  ⟨(managed_with_alignment_validation 6).1 (by decide),
   (managed_with_alignment_validation 8).2 3 (by decide)⟩

/-- C7: for the binary-trees example format, after
`forward(old, new)` the object at the old address is a forwarding
marker whose `is_forwarded` reports exactly `new`, and `skip` over it
yields the same next-object address as `skip` over the original object
did: the marker records and reports the original size. -/
theorem treeobject_forwarding_roundtrip (layoutSize : Nat) (old : TreeObject)
    (oldAddr new : Nat) :
    (TreeObject.forward layoutSize old new).is_forwarded = new ∧
    TreeObject.skip layoutSize oldAddr (TreeObject.forward layoutSize old new) =
      TreeObject.skip layoutSize oldAddr old :=
  ⟨rfl, rfl⟩

/-- C7 (witness): the theorem applied to a live tree node at address
`500` forwarded to address `1000`, with layout size `24`. -/
theorem treeobject_forwarding_roundtrip_witness :
    (TreeObject.forward 24 (TreeObject.Tree none) 1000).is_forwarded = 1000 ∧
    TreeObject.skip 24 500 (TreeObject.forward 24 (TreeObject.Tree none) 1000) =
      TreeObject.skip 24 500 (TreeObject.Tree none) :=
  treeobject_forwarding_roundtrip 24 (TreeObject.Tree none) 500 1000

/-- C8: for the binary-trees example format, for every size at least
the minimum object footprint (the padded layout size of `TreeObject`),
writing a padding marker with `pad(addr, size)` and then skipping it
yields exactly `addr + size`. -/
theorem treeobject_padding_roundtrip (layoutSize addr size : Nat)
    (h : layoutSize ≤ size) :
    TreeObject.skip layoutSize addr (TreeObject.pad size) = addr + size :=
  rfl

/-- C8 (witness): the theorem applied with layout size `24`, address
`100` and pad size `32 ≥ 24`: the skip lands at `132`. -/
theorem treeobject_padding_roundtrip_witness :
    TreeObject.skip 24 100 (TreeObject.pad 32) = 132 :=
  treeobject_padding_roundtrip 24 100 32 (by decide)

/-- C9: for both concrete pool types, the drop implementation destroys
the engine pool strictly before destroying the owned `ObjectFormat`:
in each destruction trace both events occur, and the pool-destruction
event precedes the format-destruction event. -/
theorem pools_drop_pool_before_format :
    AutoMarkSweep.dropTrace.indexOf DropEvent.destroyPool <
      AutoMarkSweep.dropTrace.indexOf DropEvent.destroyFormat ∧
    DropEvent.destroyPool ∈ AutoMarkSweep.dropTrace ∧
    DropEvent.destroyFormat ∈ AutoMarkSweep.dropTrace ∧
    AutoMostlyCopyingPool.dropTrace.indexOf DropEvent.destroyPool <
      AutoMostlyCopyingPool.dropTrace.indexOf DropEvent.destroyFormat ∧
    DropEvent.destroyPool ∈ AutoMostlyCopyingPool.dropTrace ∧
    DropEvent.destroyFormat ∈ AutoMostlyCopyingPool.dropTrace := by
  decide

end Mps
